import Mathlib

/-!
Verification of the animal-grouping program (src/function.py) against its
specification.  The program partitions a list of rational weights into
group_amount groups by shuffle-and-round-robin, accepts a partition when no
group has a standard deviation above ref_std * threshold, retries up to a
fixed ceiling, optionally balances the two sexes separately and then merges
them by a random bijection of groups, and finally materializes the accepted
partition as a labeled table.  Weights are modelled as rationals, the numpy
float arithmetic as exact arithmetic over ℚ with square roots taken in ℝ.
-/

namespace AnimalGrouper

/-- MAX_RETRIES (function.py line 9). -/
def MAX_RETRIES : ℕ := 1000

/-- The arithmetic mean used by np.std.  For the empty list the ℚ division
by zero yields 0; numpy returns nan there, and every comparison the program
performs on the derived standard deviations gives the same verdict under
either convention (both nan > x and 0 > x * t are false for x, t ≥ 0). -/
def popMean (l : List ℚ) : ℚ := l.sum / l.length

/-- The population variance (divisor n) of a 1-D array, the square of
np.std.  See popMean for the empty-list convention. -/
def popVar (l : List ℚ) : ℚ := (l.map (fun x => (x - popMean l) ^ 2)).sum / l.length

/-- np.std of a 1-D array: the population standard deviation. -/
noncomputable def npStd (l : List ℚ) : ℝ := Real.sqrt (popVar l)

/-- Decides the comparison Real.sqrt V * t < Real.sqrt v for rationals
V, v ≥ 0 — the form in which the source compares each group standard
deviation against ref_std * threshold.  Proved correct against the real
comparison in stdGtBool_eq_true_iff. -/
def stdGtBool (V t v : ℚ) : Bool :=
  if 0 ≤ t then decide (V * t ^ 2 < v) else decide (V ≠ 0 ∨ v ≠ 0)

/-- True when all inner lists have one common length, i.e. when
np.array(grouped_data) forms a rectangular 2-D numeric array.  When the
lengths differ, numpy cannot coerce the list of groups into a numeric
array and np.std(grouped_data) raises instead of returning a number
(ValueError on current numpy; TypeError on the legacy object-array path). -/
def allEqualLengths (grouped : List (List ℚ)) : Bool :=
  match grouped with
  | [] => true
  | grp :: rest => rest.all (fun d => d.length == grp.length)

/-- check_std_deviation_within_threshold (function.py lines 83-97):
np.any of (std of each group > np.std(grouped_data) * threshold).
Despite its name it returns True when the partition is REJECTED.
Result: some true — some group standard deviation exceeds
ref_std * threshold (rejected); some false — every group standard
deviation is ≤ ref_std * threshold (accepted, the retry loop exits);
none — np.std(grouped_data) raised because the group lengths differ.
For a rectangular array np.std averages over all elements, so ref_std is
the population standard deviation of the concatenation of the groups. -/
def check_std_deviation_within_threshold (grouped : List (List ℚ)) (t : ℚ) : Option Bool :=
  if allEqualLengths grouped then
    some (grouped.any fun grp => stdGtBool (popVar grouped.flatten) t (popVar grp))
  else none

/-- distribute_data_evenly (function.py lines 40-59).  The source appends
each element to groups[i % group_amount] where i is its 0-based position,
so group j collects, in input order, exactly the elements whose position
is congruent to j modulo group_amount. -/
def distribute_data_evenly (g : ℕ) (datas : List ℚ) : List (List ℚ) :=
  (List.range g).map fun j => (datas.enum.filter fun p => p.1 % g == j).map Prod.snd

/-- group_randomly (function.py lines 62-80).  The source calls
random.shuffle(datas), which permutes the array IN PLACE, and then
distributes the shuffled array round-robin.  The random draw is modelled
by the shuffled argument, constrained in the theorems to be a permutation
of datas.  First component: the returned partition.  Second component:
the contents of the buffer the caller passed in, after the call — the
shuffled sequence, because the shuffle mutated it in place.  The local
max_animal_per_group computed on lines 72-75 is never used and is
omitted. -/
def group_randomly (g : ℕ) (datas shuffled : List ℚ) : List (List ℚ) × List ℚ :=
  (distribute_data_evenly g shuffled, shuffled)

/-- The failure modes of the program: the ValueError of the constructor
(the SchemaError of the spec), OverRetryException (RetryExhausted), the
np.std failure on groups of unequal lengths (unclassified), the ValueError
guard of convert_to_df (the ShapeError of the spec), and the pandas
length-of-values-does-not-match-length-of-index ValueError
(unclassified). -/
inductive PyErr where
  | schemaError : PyErr
  | overRetry : PyErr
  | npError : PyErr
  | shapeError : PyErr
  | lengthMismatch : PyErr
deriving DecidableEq

/-- group_based_on_deviation (function.py lines 100-121), the bounded
retry search.  gen k is the partition produced by the (k+1)-st call to
group_randomly (the source draws it from the process-global random
state).  fuel is MAX_RETRIES minus the source counter, so the source test
counter > MAX_RETRIES is the fuel = 0 test here, and the entry point
starts with fuel = MAX_RETRIES, counter = 0.  r accumulates how many
candidates were checked and rejected.  Results: .ok p — the while loop
exits and p is returned; .error .overRetry — OverRetryException is
raised (after one more candidate is generated but not checked);
.error .npError — the check raised inside np.std. -/
def group_based_on_deviation_go (gen : ℕ → List (List ℚ)) (t : ℚ) :
    ℕ → ℕ → ℕ → Except PyErr (List (List ℚ)) × ℕ
  | fuel, i, r =>
    match check_std_deviation_within_threshold (gen i) t with
    | none => (Except.error PyErr.npError, r)
    | some false => (Except.ok (gen i), r)
    | some true =>
      match fuel with
      | 0 => (Except.error PyErr.overRetry, r + 1)
      | fuel' + 1 => group_based_on_deviation_go gen t fuel' (i + 1) (r + 1)

/-- Entry point of the bounded retry search: first candidate gen 0,
counter 0 (fuel MAX_RETRIES), no rejections yet. -/
def group_based_on_deviation (gen : ℕ → List (List ℚ)) (t : ℚ) :
    Except PyErr (List (List ℚ)) × ℕ :=
  group_based_on_deviation_go gen t MAX_RETRIES 0 0

/-- The labels drawn by the matching for-loop of
combine_lists_within_threshold (function.py lines 147-152).  At position
i the source draws number = random.choice(group_label) and removes it
from the pool; pick i is the random index of that draw, reduced modulo
the number of remaining labels. -/
def labels_go (pick : ℕ → ℕ) : ℕ → ℕ → List ℕ → List ℕ
  | _, 0, _ => []
  | i, fuel + 1, labels =>
    labels.getD (pick i % labels.length) 0 ::
      labels_go pick (i + 1) fuel (labels.eraseIdx (pick i % labels.length))

/-- The merged list built by one pass of the for-loop of
combine_lists_within_threshold: position i holds list1[i] + list2[number]
where number is the label drawn at position i (see labels_go). -/
def combine_go (list1 list2 : List (List ℚ)) (pick : ℕ → ℕ) :
    ℕ → ℕ → List ℕ → List (List ℚ)
  | _, 0, _ => []
  | i, fuel + 1, labels =>
    (list1.getD i [] ++ list2.getD (labels.getD (pick i % labels.length) 0) []) ::
      combine_go list1 list2 pick (i + 1) fuel (labels.eraseIdx (pick i % labels.length))

/-- One full matching attempt of combine_lists_within_threshold:
group_label starts as list(range(group_amount)) and the for-loop runs for
i in range(group_amount). -/
def combine_attempt (g : ℕ) (list1 list2 : List (List ℚ)) (pick : ℕ → ℕ) : List (List ℚ) :=
  combine_go list1 list2 pick 0 g (List.range g)

/-- combine_lists_within_threshold (function.py lines 124-160).
picks a i is the random.choice index drawn at position i of attempt a,
where a is the source counter value during that attempt (1-based: the
counter is incremented at the top of the loop body).  fuel is MAX_RETRIES
minus the counter value before that increment, so the source test
counter > MAX_RETRIES is the fuel = 0 test; the source builds the final
(never-checked) matching before raising, which is unobservable here
because the construction is pure.  r counts rejected matching attempts. -/
def combine_lists_go (g : ℕ) (list1 list2 : List (List ℚ)) (t : ℚ) (picks : ℕ → ℕ → ℕ) :
    ℕ → ℕ → ℕ → Except PyErr (List (List ℚ)) × ℕ
  | 0, _, r => (Except.error PyErr.overRetry, r)
  | fuel + 1, a, r =>
    match check_std_deviation_within_threshold (combine_attempt g list1 list2 (picks a)) t with
    | none => (Except.error PyErr.npError, r)
    | some true => combine_lists_go g list1 list2 t picks fuel (a + 1) (r + 1)
    | some false => (Except.ok (combine_attempt g list1 list2 (picks a)), r)

/-- Entry point of the recombination loop: counter 0 before the body, so
the first attempt runs with counter 1 and fuel MAX_RETRIES. -/
def combine_lists_within_threshold (g : ℕ) (list1 list2 : List (List ℚ)) (t : ℚ)
    (picks : ℕ → ℕ → ℕ) : Except PyErr (List (List ℚ)) × ℕ :=
  combine_lists_go g list1 list2 t picks MAX_RETRIES 1 0

/-- The column-membership test of Animal_grouper.__init__
(function.py line 22): it raises ValueError — the SchemaError of the
spec — when the Weight column or the Sex column is absent.  Both columns
are required unconditionally, whatever is_based_on_gender is. -/
def schemaRaises (cols : List String) : Bool :=
  !(cols.contains "Weight") || !(cols.contains "Sex")

/-- Modelled from the spec: the SchemaError condition as the spec states
it — required fields are the weight field, and the sex field only when
gender-aware mode is requested.  Written for comparison with
schemaRaises, which embeds the test the source actually performs. -/
def schemaRaises_claim (cols : List String) (is_based_on_gender : Bool) : Bool :=
  !(cols.contains "Weight") || (is_based_on_gender && !(cols.contains "Sex"))

/-- Animal_grouper.__init__ (function.py lines 11-37): the validation of
line 22 runs first; only if it passes does any grouping work — and hence
any random draw — run.  Everything after the validation is abstracted as
pipeline, so the theorems can state that on a schema failure the outcome
is the SchemaError no matter what happens downstream. -/
def animal_grouper_init {α : Type} (cols : List String) (pipeline : Unit → Except PyErr α) :
    Except PyErr α :=
  if schemaRaises cols then Except.error PyErr.schemaError else pipeline ()

/-- The column names and contents produced by the assignment loop of
convert_to_df when every assignment succeeds: Group i, numbered from 1,
in group order. -/
def namedColumns : ℕ → List (List ℚ) → List (String × List ℚ)
  | _, [] => []
  | i, c :: rest => ("Group " ++ toString i, c) :: namedColumns (i + 1) rest

/-- The assignment loop of convert_to_df (function.py lines 203-204),
which assigns each group as a fresh DataFrame column.  pandas establishes
the DataFrame index with the first assigned column (idxLen is none until
then); assigning a later plain list whose length differs from the
established index length raises ValueError (length of values does not
match length of index), modelled as .error .lengthMismatch — pandas does
not pad plain-list assignments.  i is the 1-based column number. -/
def assign_columns : ℕ → Option ℕ → List (List ℚ) → Except PyErr (List (String × List ℚ))
  | _, _, [] => Except.ok []
  | i, none, c :: rest =>
    match assign_columns (i + 1) (some c.length) rest with
    | Except.ok tbl => Except.ok (("Group " ++ toString i, c) :: tbl)
    | Except.error e => Except.error e
  | i, some n, c :: rest =>
    if c.length = n then
      match assign_columns (i + 1) (some n) rest with
      | Except.ok tbl => Except.ok (("Group " ++ toString i, c) :: tbl)
      | Except.error e => Except.error e
    else Except.error PyErr.lengthMismatch

/-- convert_to_df (function.py lines 185-206): raises ValueError — the
ShapeError of the spec — when fewer groups than group_amount arrive,
otherwise assigns one column per group (also when there are MORE groups
than group_amount: the loop runs over num_groups). -/
def convert_to_df (g : ℕ) (grouped : List (List ℚ)) : Except PyErr (List (String × List ℚ)) :=
  if grouped.length < g then Except.error PyErr.shapeError
  else assign_columns 1 none grouped

/-! Helper lemmas: the statistics bridge. -/

theorem popVar_nonneg (l : List ℚ) : 0 ≤ popVar l := by
  unfold popVar
  apply div_nonneg
  · apply List.sum_nonneg
    intro x hx
    obtain ⟨y, _, rfl⟩ := List.mem_map.mp hx
    positivity
  · exact Nat.cast_nonneg _

theorem stdGtBool_eq_true_iff (V t v : ℚ) (hV : 0 ≤ V) (hv : 0 ≤ v) :
    stdGtBool V t v = true ↔ Real.sqrt V * (t : ℝ) < Real.sqrt v := by
  unfold stdGtBool
  by_cases h : 0 ≤ t
  · rw [if_pos h, decide_eq_true_eq]
    have hsV : (0 : ℝ) ≤ Real.sqrt V * (t : ℝ) :=
      mul_nonneg (Real.sqrt_nonneg _) (by exact_mod_cast h)
    have hsq : (Real.sqrt V * (t : ℝ)) ^ 2 = (V : ℝ) * (t : ℝ) ^ 2 := by
      rw [mul_pow, Real.sq_sqrt (by exact_mod_cast hV)]
    rw [Real.lt_sqrt hsV, hsq]
    exact_mod_cast Iff.rfl
  · rw [if_neg h, decide_eq_true_eq]
    have ht : (t : ℝ) < 0 := by exact_mod_cast not_le.mp h
    constructor
    · rintro (hV0 | hv0)
      · have hVpos : (0 : ℝ) < (V : ℝ) := by
          have : (0 : ℚ) < V := lt_of_le_of_ne hV (fun he => hV0 he.symm)
          exact_mod_cast this
        calc Real.sqrt V * (t : ℝ) < 0 :=
              mul_neg_of_pos_of_neg (Real.sqrt_pos.mpr hVpos) ht
          _ ≤ Real.sqrt v := Real.sqrt_nonneg _
      · have hvpos : (0 : ℝ) < (v : ℝ) := by
          have : (0 : ℚ) < v := lt_of_le_of_ne hv (fun he => hv0 he.symm)
          exact_mod_cast this
        calc Real.sqrt V * (t : ℝ) ≤ 0 :=
              mul_nonpos_iff.mpr (Or.inl ⟨Real.sqrt_nonneg _, ht.le⟩)
          _ < Real.sqrt v := Real.sqrt_pos.mpr hvpos
    · intro hlt
      by_contra hcon
      push_neg at hcon
      obtain ⟨hV0, hv0⟩ := hcon
      rw [hV0, hv0] at hlt
      norm_num at hlt

theorem check_eq_none_iff (grouped : List (List ℚ)) (t : ℚ) :
    check_std_deviation_within_threshold grouped t = none ↔
      allEqualLengths grouped = false := by
  unfold check_std_deviation_within_threshold
  by_cases h : allEqualLengths grouped <;> simp [h]

theorem check_eq_some_false_iff (grouped : List (List ℚ)) (t : ℚ)
    (h : allEqualLengths grouped = true) :
    check_std_deviation_within_threshold grouped t = some false ↔
      ∀ grp ∈ grouped, npStd grp ≤ npStd grouped.flatten * (t : ℝ) := by
  unfold check_std_deviation_within_threshold
  rw [if_pos h, Option.some_inj]
  constructor
  · intro hall grp hgrp
    have hx := List.any_eq_false.mp hall grp hgrp
    rw [stdGtBool_eq_true_iff _ _ _ (popVar_nonneg _) (popVar_nonneg _)] at hx
    exact not_lt.mp hx
  · intro hle
    rw [List.any_eq_false]
    intro grp hgrp
    rw [stdGtBool_eq_true_iff _ _ _ (popVar_nonneg _) (popVar_nonneg _)]
    exact not_lt.mpr (hle grp hgrp)

theorem allEqualLengths_pairwise (grouped : List (List ℚ))
    (h : allEqualLengths grouped = true) :
    ∀ a ∈ grouped, ∀ b ∈ grouped, a.length = b.length := by
  match grouped with
  | [] => intro a ha; exact absurd ha (List.not_mem_nil a)
  | c :: rest =>
    unfold allEqualLengths at h
    rw [List.all_eq_true] at h
    have key : ∀ d ∈ c :: rest, d.length = c.length := by
      intro d hd
      rcases List.mem_cons.mp hd with rfl | hd'
      · rfl
      · simpa using h d hd'
    intro a ha b hb
    rw [key a ha, key b hb]

/-! Helper lemmas: the round-robin partitioner. -/

theorem length_distribute (g : ℕ) (datas : List ℚ) :
    (distribute_data_evenly g datas).length = g := by
  unfold distribute_data_evenly
  rw [List.length_map, List.length_range]

theorem distribute_getD (g : ℕ) (datas : List ℚ) (j : ℕ) (hj : j < g) :
    (distribute_data_evenly g datas).getD j [] =
      (datas.enum.filter fun p => p.1 % g == j).map Prod.snd := by
  have hlen : j < (distribute_data_evenly g datas).length := by
    rw [length_distribute]; exact hj
  rw [List.getD_eq_getElem _ _ hlen]
  unfold distribute_data_evenly
  simp

theorem sum_indicator_range : ∀ g m : ℕ,
    ((List.range g).map fun j => if (m == j) = true then (1 : ℕ) else 0).sum =
      if m < g then 1 else 0 := by
  intro g
  induction g with
  | zero => intro m; simp
  | succ n ih =>
    intro m
    rw [List.range_succ, List.map_append, List.sum_append, ih m]
    simp only [List.map_cons, List.map_nil, List.sum_cons, List.sum_nil, beq_iff_eq]
    split_ifs <;> omega

theorem sum_map_add {α : Type} (L : List α) (f e : α → ℕ) :
    (L.map fun j => f j + e j).sum = (L.map f).sum + (L.map e).sum := by
  induction L with
  | nil => simp
  | cons a L ih =>
    simp only [List.map_cons, List.sum_cons, ih]
    omega

theorem sum_countP_mod (g : ℕ) (hg : 0 < g) (P : ℕ × ℚ → Bool) :
    ∀ l : List (ℕ × ℚ),
      ((List.range g).map fun j =>
        List.countP (fun p => P p && (p.1 % g == j)) l).sum = List.countP P l := by
  intro l
  induction l with
  | nil =>
    rw [List.countP_nil]
    apply List.sum_eq_zero
    intro x hx
    obtain ⟨j, _, rfl⟩ := List.mem_map.mp hx
    exact List.countP_nil _
  | cons p l ih =>
    rw [List.countP_cons]
    have hsplit : ((List.range g).map fun j =>
        List.countP (fun q => P q && (q.1 % g == j)) (p :: l)) =
        ((List.range g).map fun j =>
          List.countP (fun q => P q && (q.1 % g == j)) l +
            if (P p && (p.1 % g == j)) = true then 1 else 0) :=
      List.map_congr_left fun j _ => List.countP_cons _ _ _
    rw [hsplit, sum_map_add, ih]
    by_cases hP : P p = true
    · have hone : ((List.range g).map fun j =>
          if (P p && (p.1 % g == j)) = true then (1 : ℕ) else 0).sum = 1 := by
        have heq : ((List.range g).map fun j =>
            if (P p && (p.1 % g == j)) = true then (1 : ℕ) else 0) =
            ((List.range g).map fun j => if ((p.1 % g) == j) = true then (1 : ℕ) else 0) :=
          List.map_congr_left fun j _ => by rw [hP, Bool.true_and]
        rw [heq, sum_indicator_range, if_pos (Nat.mod_lt _ hg)]
      rw [hone, hP, if_pos rfl]
    · have hzero : ((List.range g).map fun j =>
          if (P p && (p.1 % g == j)) = true then (1 : ℕ) else 0).sum = 0 := by
        apply List.sum_eq_zero
        intro x hx
        obtain ⟨j, _, rfl⟩ := List.mem_map.mp hx
        rw [if_neg]
        intro hcon
        exact hP (Bool.and_elim_left hcon)
      rw [hzero, if_neg hP]

theorem count_distribute_group (g j : ℕ) (datas : List ℚ) (x : ℚ) :
    List.count x ((datas.enum.filter fun p => p.1 % g == j).map Prod.snd) =
      List.countP (fun p => (p.2 == x) && (p.1 % g == j)) datas.enum := by
  rw [List.count_eq_countP, List.countP_map, List.countP_filter]
  rfl

theorem flatten_distribute_perm (g : ℕ) (hg : 0 < g) (datas : List ℚ) :
    (distribute_data_evenly g datas).flatten.Perm datas := by
  rw [List.perm_iff_count]
  intro x
  rw [List.count_flatten]
  unfold distribute_data_evenly
  rw [List.map_map]
  have hrw : (List.map (List.count x ∘ fun j =>
      (datas.enum.filter fun p => p.1 % g == j).map Prod.snd) (List.range g)) =
      ((List.range g).map fun j =>
        List.countP (fun p => (p.2 == x) && (p.1 % g == j)) datas.enum) :=
    List.map_congr_left fun j _ => count_distribute_group g j datas x
  rw [hrw]
  calc ((List.range g).map fun j =>
        List.countP (fun p => (p.2 == x) && (p.1 % g == j)) datas.enum).sum
      = List.countP (fun p => p.2 == x) datas.enum :=
        sum_countP_mod g hg (fun p => p.2 == x) datas.enum
    _ = List.countP (fun y => y == x) (datas.enum.map Prod.snd) :=
        (List.countP_map (fun y => y == x) Prod.snd datas.enum).symm
    _ = List.countP (fun y => y == x) datas := by rw [List.enum_map_snd]
    _ = List.count x datas := (List.count_eq_countP _ _).symm

theorem countP_mod_range (g j : ℕ) (hj : j < g) :
    ∀ n : ℕ, List.countP (fun i => i % g == j) (List.range n) =
      n / g + if j < n % g then 1 else 0 := by
  have hg : 0 < g := lt_of_le_of_lt (Nat.zero_le j) hj
  intro n
  induction n with
  | zero => simp
  | succ n ih =>
    rw [List.range_succ, List.countP_append, ih, List.countP_singleton]
    have hqr : g * (n / g) + n % g = n := Nat.div_add_mod n g
    have hr : n % g < g := Nat.mod_lt _ hg
    by_cases hc : n % g + 1 = g
    · have key : n + 1 = g * (n / g + 1) := by rw [Nat.mul_succ]; omega
      have hdiv : (n + 1) / g = n / g + 1 := by
        rw [key, Nat.mul_div_cancel_left _ hg]
      have hmod : (n + 1) % g = 0 := by rw [key, Nat.mul_mod_right]
      rw [hdiv, hmod]
      simp only [beq_iff_eq]
      split_ifs <;> omega
    · have hc' : n % g + 1 < g := by omega
      have key : n + 1 = (n % g + 1) + g * (n / g) := by omega
      have hdiv : (n + 1) / g = n / g := by
        rw [key, Nat.add_mul_div_left _ _ hg, Nat.div_eq_of_lt hc', Nat.zero_add]
      have hmod : (n + 1) % g = n % g + 1 := by
        rw [key, Nat.add_mul_mod_self_left, Nat.mod_eq_of_lt hc']
      rw [hdiv, hmod]
      simp only [beq_iff_eq]
      split_ifs <;> omega

theorem distribute_group_length (g : ℕ) (datas : List ℚ) (j : ℕ) (hj : j < g) :
    ((distribute_data_evenly g datas).getD j []).length =
      datas.length / g + if j < datas.length % g then 1 else 0 := by
  rw [distribute_getD g datas j hj, List.length_map, ← List.countP_eq_length_filter]
  have h1 : List.countP (fun p => p.1 % g == j) datas.enum =
      List.countP (fun i => i % g == j) (datas.enum.map Prod.fst) :=
    (List.countP_map (fun i => i % g == j) Prod.fst datas.enum).symm
  rw [h1, List.enum_map_fst, countP_mod_range g j hj]

theorem distribute_sizes (g : ℕ) (datas : List ℚ) (j : ℕ) (hj : j < g) :
    ((distribute_data_evenly g datas).getD j []).length = datas.length / g ∨
      ((distribute_data_evenly g datas).getD j []).length = (datas.length + g - 1) / g := by
  have hg : 0 < g := lt_of_le_of_lt (Nat.zero_le j) hj
  rw [distribute_group_length g datas j hj]
  by_cases hcase : j < datas.length % g
  · right
    rw [if_pos hcase]
    have hqr : g * (datas.length / g) + datas.length % g = datas.length :=
      Nat.div_add_mod _ g
    have hr : datas.length % g < g := Nat.mod_lt _ hg
    have hr1 : 1 ≤ datas.length % g := by omega
    have hmul : g * (datas.length / g + 1) = g * (datas.length / g) + g := Nat.mul_succ g _
    have key : datas.length + g - 1 = (datas.length % g - 1) + g * (datas.length / g + 1) := by
      omega
    have hlt : datas.length % g - 1 < g := by omega
    rw [key, Nat.add_mul_div_left _ _ hg, Nat.div_eq_of_lt hlt]
    omega
  · left
    rw [if_neg hcase, Nat.add_zero]

theorem distribute_nil (g : ℕ) : distribute_data_evenly g [] = List.replicate g [] := by
  unfold distribute_data_evenly
  have h : (List.range g).map
      (fun j => (([] : List ℚ).enum.filter fun p => p.1 % g == j).map Prod.snd) =
      (List.range g).map fun _ => ([] : List ℚ) := List.map_congr_left fun j _ => rfl
  rw [h, List.map_const', List.length_range]

/-! Helper lemmas: the bounded retry loops. -/

theorem group_loop_exhaust (gen : ℕ → List (List ℚ)) (t : ℚ)
    (h : ∀ k, check_std_deviation_within_threshold (gen k) t = some true) :
    ∀ fuel i r, group_based_on_deviation_go gen t fuel i r =
      (Except.error PyErr.overRetry, r + fuel + 1) := by
  intro fuel
  induction fuel with
  | zero =>
    intro i r
    simp only [group_based_on_deviation_go, h i]
  | succ f ih =>
    intro i r
    simp only [group_based_on_deviation_go, h i]
    rw [ih (i + 1) (r + 1)]
    have harith : r + 1 + f + 1 = r + (f + 1) + 1 := by omega
    rw [harith]

theorem group_loop_accept (gen : ℕ → List (List ℚ)) (t : ℚ) (i r : ℕ)
    (hacc : check_std_deviation_within_threshold (gen i) t = some false) :
    ∀ fuel, group_based_on_deviation_go gen t fuel i r = (Except.ok (gen i), r) := by
  intro fuel
  cases fuel with
  | zero => simp only [group_based_on_deviation_go, hacc]
  | succ f => simp only [group_based_on_deviation_go, hacc]

theorem group_loop_first_accept (gen : ℕ → List (List ℚ)) (t : ℚ)
    (hacc : check_std_deviation_within_threshold (gen 0) t = some false) :
    group_based_on_deviation gen t = (Except.ok (gen 0), 0) := by
  unfold group_based_on_deviation
  exact group_loop_accept gen t 0 0 hacc MAX_RETRIES

theorem combine_loop_exhaust (g : ℕ) (l1 l2 : List (List ℚ)) (t : ℚ) (picks : ℕ → ℕ → ℕ)
    (h : ∀ a, check_std_deviation_within_threshold
      (combine_attempt g l1 l2 (picks a)) t = some true) :
    ∀ fuel a r, combine_lists_go g l1 l2 t picks fuel a r =
      (Except.error PyErr.overRetry, r + fuel) := by
  intro fuel
  induction fuel with
  | zero => intro a r; rfl
  | succ f ih =>
    intro a r
    simp only [combine_lists_go, h a]
    rw [ih (a + 1) (r + 1)]
    have harith : r + 1 + f = r + (f + 1) := by omega
    rw [harith]

theorem combine_loop_ok (g : ℕ) (l1 l2 : List (List ℚ)) (t : ℚ) (picks : ℕ → ℕ → ℕ) :
    ∀ fuel a r p r', combine_lists_go g l1 l2 t picks fuel a r = (Except.ok p, r') →
      ∃ k, p = combine_attempt g l1 l2 (picks k) := by
  intro fuel
  induction fuel with
  | zero =>
    intro a r p r' h
    simp only [combine_lists_go, Prod.mk.injEq] at h
    exact Except.noConfusion h.1
  | succ f ih =>
    intro a r p r' h
    simp only [combine_lists_go] at h
    split at h
    · simp only [Prod.mk.injEq] at h
      exact Except.noConfusion h.1
    · exact ih _ _ _ _ h
    · simp only [Prod.mk.injEq] at h
      exact ⟨a, (Except.ok.inj h.1).symm⟩

/-! Helper lemmas: one recombination matching attempt. -/

theorem getD_cons_eraseIdx_perm (l : List ℕ) (idx : ℕ) (h : idx < l.length) :
    (l.getD idx 0 :: l.eraseIdx idx).Perm l := by
  rw [List.getD_eq_getElem _ _ h, List.eraseIdx_eq_take_drop_succ]
  conv_rhs => rw [← List.take_append_drop idx l, List.drop_eq_getElem_cons h]
  exact List.perm_middle.symm

theorem labels_go_length (pick : ℕ → ℕ) :
    ∀ fuel i labels, (labels_go pick i fuel labels).length = fuel := by
  intro fuel
  induction fuel with
  | zero => intro i labels; rfl
  | succ f ih =>
    intro i labels
    simp only [labels_go, List.length_cons, ih]

theorem labels_go_perm (pick : ℕ → ℕ) :
    ∀ fuel i labels, labels.length = fuel →
      (labels_go pick i fuel labels).Perm labels := by
  intro fuel
  induction fuel with
  | zero =>
    intro i labels h
    rw [List.length_eq_zero] at h
    subst h
    exact List.Perm.nil
  | succ f ih =>
    intro i labels h
    have hpos : 0 < labels.length := by omega
    have hidx : pick i % labels.length < labels.length := Nat.mod_lt _ hpos
    have herase : (labels.eraseIdx (pick i % labels.length)).length = f := by
      rw [List.length_eraseIdx, if_pos hidx]
      omega
    have hperm := ih (i + 1) (labels.eraseIdx (pick i % labels.length)) herase
    simp only [labels_go]
    exact (hperm.cons _).trans (getD_cons_eraseIdx_perm labels _ hidx)

theorem combine_go_eq_zipWith (list1 list2 : List (List ℚ)) (pick : ℕ → ℕ) :
    ∀ fuel i labels,
      combine_go list1 list2 pick i fuel labels =
        List.zipWith (fun a b => a ++ b)
          ((List.range' i fuel).map fun k => list1.getD k [])
          ((labels_go pick i fuel labels).map fun m => list2.getD m []) := by
  intro fuel
  induction fuel with
  | zero => intro i labels; rfl
  | succ f ih =>
    intro i labels
    rw [List.range'_succ]
    simp only [combine_go, labels_go, List.map_cons, List.zipWith_cons_cons]
    rw [ih (i + 1) (labels.eraseIdx (pick i % labels.length))]

theorem map_getD_range (l : List (List ℚ)) (g : ℕ) (h : l.length = g) :
    ((List.range g).map fun k => l.getD k []) = l := by
  subst h
  apply List.ext_getElem
  · rw [List.length_map, List.length_range]
  · intro n h1 h2
    rw [List.getElem_map, List.getElem_range]
    exact List.getD_eq_getElem l [] h2

theorem combine_attempt_spec (g : ℕ) (l1 l2 : List (List ℚ)) (pick : ℕ → ℕ)
    (h1 : l1.length = g) :
    ∃ σ : List ℕ, σ.Perm (List.range g) ∧
      combine_attempt g l1 l2 pick =
        List.zipWith (fun a b => a ++ b) l1 (σ.map fun m => l2.getD m []) := by
  refine ⟨labels_go pick 0 g (List.range g), ?_, ?_⟩
  · exact labels_go_perm pick g 0 (List.range g) (List.length_range g)
  · unfold combine_attempt
    rw [combine_go_eq_zipWith l1 l2 pick g 0 (List.range g), ← List.range_eq_range',
      map_getD_range l1 g h1]

theorem sum_length_zipWith_append :
    ∀ l m : List (List ℚ), l.length = m.length →
      ((List.zipWith (fun a b => a ++ b) l m).map List.length).sum =
        (l.map List.length).sum + (m.map List.length).sum := by
  intro l
  induction l with
  | nil =>
    intro m h
    have hm : m = [] := by
      cases m with
      | nil => rfl
      | cons b m' => simp at h
    subst hm
    rfl
  | cons a l ih =>
    intro m h
    cases m with
    | nil => simp at h
    | cons b m' =>
      simp only [List.zipWith_cons_cons, List.map_cons, List.sum_cons, List.length_append]
      rw [ih m' (by simpa using h)]
      omega

/-! Helper lemmas: materialization. -/

theorem namedColumns_length : ∀ (l : List (List ℚ)) (i : ℕ),
    (namedColumns i l).length = l.length := by
  intro l
  induction l with
  | nil => intro i; rfl
  | cons c rest ih =>
    intro i
    simp only [namedColumns, List.length_cons, ih]

theorem namedColumns_getD : ∀ (l : List (List ℚ)) (i j : ℕ), j < l.length →
    (namedColumns i l).getD j ("", []) =
      ("Group " ++ toString (i + j), l.getD j []) := by
  intro l
  induction l with
  | nil => intro i j hj; simp at hj
  | cons c rest ih =>
    intro i j hj
    cases j with
    | zero => simp [namedColumns]
    | succ j' =>
      have hj' : j' < rest.length := by simpa using hj
      simp only [namedColumns, List.getD_cons_succ]
      rw [ih (i + 1) j' hj']
      have harith : i + 1 + j' = i + (j' + 1) := by omega
      rw [harith]

theorem assign_columns_ok : ∀ (rest : List (List ℚ)) (i n : ℕ),
    rest.all (fun d => d.length == n) = true →
    assign_columns i (some n) rest = Except.ok (namedColumns i rest) := by
  intro rest
  induction rest with
  | nil => intro i n _; rfl
  | cons c rest ih =>
    intro i n h
    rw [List.all_cons, Bool.and_eq_true] at h
    have hc : c.length = n := beq_iff_eq.mp h.1
    simp only [assign_columns, if_pos hc, ih (i + 1) n h.2]
    rfl

theorem assign_columns_fail : ∀ (rest : List (List ℚ)) (i n : ℕ),
    rest.all (fun d => d.length == n) = false →
    assign_columns i (some n) rest = Except.error PyErr.lengthMismatch := by
  intro rest
  induction rest with
  | nil => intro i n h; simp at h
  | cons c rest ih =>
    intro i n h
    by_cases hc : c.length = n
    · rw [List.all_cons] at h
      have hcn : (c.length == n) = true := beq_iff_eq.mpr hc
      rw [hcn, Bool.true_and] at h
      simp only [assign_columns, if_pos hc, ih (i + 1) n h]
    · simp only [assign_columns, if_neg hc]

theorem convert_ok (g : ℕ) (grouped : List (List ℚ)) (hg : g ≤ grouped.length)
    (heq : allEqualLengths grouped = true) :
    convert_to_df g grouped = Except.ok (namedColumns 1 grouped) := by
  unfold convert_to_df
  rw [if_neg (not_lt.mpr hg)]
  cases grouped with
  | nil => rfl
  | cons c rest =>
    have hall : rest.all (fun d => d.length == c.length) = true := heq
    simp only [assign_columns, assign_columns_ok rest 2 c.length hall]
    rfl

theorem convert_fail (g : ℕ) (grouped : List (List ℚ)) (hg : g ≤ grouped.length)
    (hne : allEqualLengths grouped = false) :
    convert_to_df g grouped = Except.error PyErr.lengthMismatch := by
  unfold convert_to_df
  rw [if_neg (not_lt.mpr hg)]
  cases grouped with
  | nil => exact absurd hne (by simp [allEqualLengths])
  | cons c rest =>
    have hall : rest.all (fun d => d.length == c.length) = false := hne
    simp only [assign_columns, assign_columns_fail rest 2 c.length hall]

/-! Helper lemmas: evaluating the check on concrete partitions (the exact
rational arithmetic of popVar does not reduce by decide, so concrete
verdicts are derived through these introduction rules and norm_num). -/

theorem stdGtBool_true_of_lt (V t v : ℚ) (ht : 0 ≤ t) (h : V * t ^ 2 < v) :
    stdGtBool V t v = true := by
  unfold stdGtBool
  rw [if_pos ht, decide_eq_true_eq]
  exact h

theorem stdGtBool_false_of_le (V t v : ℚ) (ht : 0 ≤ t) (h : v ≤ V * t ^ 2) :
    stdGtBool V t v = false := by
  unfold stdGtBool
  rw [if_pos ht]
  exact decide_eq_false (not_lt.mpr h)

theorem check_eq_some_true_intro (grouped : List (List ℚ)) (t : ℚ)
    (heq : allEqualLengths grouped = true) (grp : List ℚ) (hmem : grp ∈ grouped)
    (hgt : stdGtBool (popVar grouped.flatten) t (popVar grp) = true) :
    check_std_deviation_within_threshold grouped t = some true := by
  unfold check_std_deviation_within_threshold
  rw [if_pos heq, Option.some_inj, List.any_eq_true]
  exact ⟨grp, hmem, hgt⟩

theorem check_eq_some_false_intro (grouped : List (List ℚ)) (t : ℚ)
    (heq : allEqualLengths grouped = true)
    (hall : ∀ grp ∈ grouped, stdGtBool (popVar grouped.flatten) t (popVar grp) = false) :
    check_std_deviation_within_threshold grouped t = some false := by
  unfold check_std_deviation_within_threshold
  rw [if_pos heq, Option.some_inj, List.any_eq_false]
  intro grp hgrp
  rw [hall grp hgrp]
  exact Bool.false_ne_true

theorem combine_loop_first_accept (g : ℕ) (l1 l2 : List (List ℚ)) (t : ℚ)
    (picks : ℕ → ℕ → ℕ)
    (hacc : check_std_deviation_within_threshold
      (combine_attempt g l1 l2 (picks 1)) t = some false) :
    combine_lists_within_threshold g l1 l2 t picks =
      (Except.ok (combine_attempt g l1 l2 (picks 1)), 0) := by
  unfold combine_lists_within_threshold
  show combine_lists_go g l1 l2 t picks (999 + 1) 1 0 = _
  simp only [combine_lists_go, hacc]

/-! The claims. -/

/-- Claim C1: for every partition of group_amount equally-long groups and
every positive threshold, the dispersion acceptance test (check result
some false, the condition under which the retry loop of
group_based_on_deviation exits) holds iff every group population standard
deviation is at most ref_std * threshold, where ref_std — what np.std
computes on the rectangular array of groups — is the population standard
deviation of the concatenated sample set; in particular a partition whose
groups all have standard deviation 0 is always accepted, and an accepted
first candidate makes the retry loop return it at once with no retries. -/
theorem C1_accept_iff (groups : List (List ℚ)) (g : ℕ) (t : ℚ)
    (hlen : groups.length = g) (heq : allEqualLengths groups = true) (ht : 0 < t) :
    (check_std_deviation_within_threshold groups t = some false ↔
      ∀ grp ∈ groups, npStd grp ≤ npStd groups.flatten * (t : ℝ)) ∧
    ((∀ grp ∈ groups, npStd grp = 0) →
      check_std_deviation_within_threshold groups t = some false) ∧
    (∀ gen : ℕ → List (List ℚ), gen 0 = groups →
      check_std_deviation_within_threshold groups t = some false →
      group_based_on_deviation gen t = (Except.ok groups, 0)) := by
  refine ⟨check_eq_some_false_iff groups t heq, ?_, ?_⟩
  · intro hz
    rw [check_eq_some_false_iff groups t heq]
    intro grp hgrp
    rw [hz grp hgrp]
    have hnn : (0 : ℝ) ≤ npStd groups.flatten := Real.sqrt_nonneg _
    have htr : (0 : ℝ) ≤ (t : ℝ) := by exact_mod_cast ht.le
    exact mul_nonneg hnn htr
  · intro gen hgen hacc
    have hres := group_loop_first_accept gen t (by rw [hgen]; exact hacc)
    rw [hgen] at hres
    exact hres

/-- Claim C1 witness: the concrete partition of four weights 2 into two
groups of two has all group standard deviations 0 and is accepted. -/
theorem C1_accept_iff_witness :
    check_std_deviation_within_threshold [[2, 2], [2, 2]] 1 = some false := by
  have hz : ∀ grp ∈ ([[2, 2], [2, 2]] : List (List ℚ)), npStd grp = 0 := by
    intro grp hgrp
    have hgr : grp = ([2, 2] : List ℚ) := by
      rcases List.mem_cons.mp hgrp with h | h2
      · exact h
      · rcases List.mem_cons.mp h2 with h | h3
        · exact h
        · exact absurd h3 (List.not_mem_nil grp)
    subst hgr
    unfold npStd
    have hv : popVar ([2, 2] : List ℚ) = 0 := by norm_num [popVar, popMean]
    rw [hv, Rat.cast_zero, Real.sqrt_zero]
  exact (C1_accept_iff [[2, 2], [2, 2]] 2 1 rfl rfl (by norm_num)).2.1 hz

/-- Claim C2 counterexample: with every candidate rejected — a constant
high-dispersion candidate stream at threshold 1/2 — the retry search of
group_based_on_deviation raises OverRetryException only after 1001
rejected attempts, not after the claimed 1000. -/
theorem C2_counterexample :
    group_based_on_deviation (fun _ => [[0, 10], [0, 10]]) (1 / 2) =
      (Except.error PyErr.overRetry, 1001) ∧ (1001 : ℕ) ≠ 1000 := by
  constructor
  · have hc : check_std_deviation_within_threshold [[(0 : ℚ), 10], [0, 10]] (1 / 2) =
        some true := by
      apply check_eq_some_true_intro _ _ (by decide) [0, 10] (by decide)
      have hf : ([[(0 : ℚ), 10], [0, 10]]).flatten = [0, 10, 0, 10] := rfl
      rw [hf]
      have h1 : popVar ([0, 10, 0, 10] : List ℚ) = 25 := by norm_num [popVar, popMean]
      have h2 : popVar ([0, 10] : List ℚ) = 25 := by norm_num [popVar, popMean]
      rw [h1, h2]
      apply stdGtBool_true_of_lt <;> norm_num
    unfold group_based_on_deviation
    rw [group_loop_exhaust _ _ (fun k => hc) MAX_RETRIES 0 0]
    rfl
  · decide

/-- Claim C2 (amended): when every generated candidate partition is
rejected, group_based_on_deviation raises OverRetryException after exactly
1001 rejected attempts (the initial candidate plus MAX_RETRIES retried
candidates are checked and rejected; one further candidate is generated
but never checked), not unbounded; the sex-aware recombination matching
loop is bounded by the same MAX_RETRIES = 1000 ceiling and raises the same
exception after exactly 1000 rejected matching attempts. -/
theorem C2_retry_counts (gen : ℕ → List (List ℚ)) (t : ℚ) (g : ℕ)
    (list1 list2 : List (List ℚ)) (t2 : ℚ) (picks : ℕ → ℕ → ℕ)
    (h1 : ∀ k, check_std_deviation_within_threshold (gen k) t = some true)
    (h2 : ∀ a, check_std_deviation_within_threshold
      (combine_attempt g list1 list2 (picks a)) t2 = some true) :
    group_based_on_deviation gen t = (Except.error PyErr.overRetry, 1001) ∧
    combine_lists_within_threshold g list1 list2 t2 picks =
      (Except.error PyErr.overRetry, 1000) := by
  constructor
  · unfold group_based_on_deviation
    rw [group_loop_exhaust gen t h1 MAX_RETRIES 0 0]
    rfl
  · unfold combine_lists_within_threshold
    rw [combine_loop_exhaust g list1 list2 t2 picks h2 MAX_RETRIES 1 0]
    rfl

/-- Claim C2 witness: a concrete all-rejected candidate stream and a
concrete all-rejected matching exhaust both loops with the stated
rejection counts. -/
theorem C2_retry_counts_witness :
    group_based_on_deviation (fun _ => [[0, 2], [0, 2]]) (1 / 2) =
      (Except.error PyErr.overRetry, 1001) ∧
    combine_lists_within_threshold 2 [[0], [0]] [[10], [0]] (1 / 2) (fun _ _ => 0) =
      (Except.error PyErr.overRetry, 1000) := by
  have hc1 : check_std_deviation_within_threshold [[(0 : ℚ), 2], [0, 2]] (1 / 2) =
      some true := by
    apply check_eq_some_true_intro _ _ (by decide) [0, 2] (by decide)
    have hf : ([[(0 : ℚ), 2], [0, 2]]).flatten = [0, 2, 0, 2] := rfl
    rw [hf]
    have h1 : popVar ([0, 2, 0, 2] : List ℚ) = 1 := by norm_num [popVar, popMean]
    have h2 : popVar ([0, 2] : List ℚ) = 1 := by norm_num [popVar, popMean]
    rw [h1, h2]
    apply stdGtBool_true_of_lt <;> norm_num
  have hc2 : check_std_deviation_within_threshold [[(0 : ℚ), 10], [0, 0]] (1 / 2) =
      some true := by
    apply check_eq_some_true_intro _ _ (by decide) [0, 10] (by decide)
    have hf : ([[(0 : ℚ), 10], [0, 0]]).flatten = [0, 10, 0, 0] := rfl
    rw [hf]
    have h1 : popVar ([0, 10, 0, 0] : List ℚ) = 75 / 4 := by norm_num [popVar, popMean]
    have h2 : popVar ([0, 10] : List ℚ) = 25 := by norm_num [popVar, popMean]
    rw [h1, h2]
    apply stdGtBool_true_of_lt <;> norm_num
  exact C2_retry_counts (fun _ => [[0, 2], [0, 2]]) (1 / 2) 2 [[0], [0]] [[10], [0]] (1 / 2)
    (fun _ _ => 0) (fun _ => hc1) (fun _ => hc2)

/-- Claim C3 counterexample: a dataset with the weight column but no sex
column makes the constructor validation raise even though
is_based_on_gender is false — the source requires both columns
unconditionally, the claimed condition does not. -/
theorem C3_counterexample :
    schemaRaises ["Weight"] = true ∧ schemaRaises_claim ["Weight"] false = false := by
  constructor
  · decide
  · decide

/-- Claim C3 (amended): a SchemaError is raised at request validation,
before any partitioning work or random draw occurs, iff the weight field
is missing or the sex field is missing — regardless of is_based_on_gender;
when validation fails the outcome is the SchemaError independently of
everything downstream, and when it passes the pipeline runs. -/
theorem C3_schema_amended {α : Type} (cols : List String)
    (pipeline1 pipeline2 : Unit → Except PyErr α) :
    (schemaRaises cols = true ↔ ("Weight" ∉ cols ∨ "Sex" ∉ cols)) ∧
    (schemaRaises cols = true →
      animal_grouper_init cols pipeline1 = Except.error PyErr.schemaError ∧
      animal_grouper_init cols pipeline1 = animal_grouper_init cols pipeline2) ∧
    (schemaRaises cols = false →
      animal_grouper_init cols pipeline1 = pipeline1 ()) := by
  have hW : (cols.contains "Weight" = true) ↔ "Weight" ∈ cols := List.elem_iff
  have hS : (cols.contains "Sex" = true) ↔ "Sex" ∈ cols := List.elem_iff
  refine ⟨?_, ?_, ?_⟩
  · unfold schemaRaises
    rw [Bool.or_eq_true, Bool.not_eq_true', Bool.not_eq_true']
    constructor
    · rintro (h | h)
      · refine Or.inl fun hm => ?_
        rw [hW.mpr hm] at h
        cases h
      · refine Or.inr fun hm => ?_
        rw [hS.mpr hm] at h
        cases h
    · rintro (h | h)
      · left
        cases hcw : cols.contains "Weight" with
        | false => rfl
        | true => exact absurd (hW.mp hcw) h
      · right
        cases hcs : cols.contains "Sex" with
        | false => rfl
        | true => exact absurd (hS.mp hcs) h
  · intro h
    constructor <;> simp [animal_grouper_init, h]
  · intro h
    simp [animal_grouper_init, h]

/-- Claim C3 witness: a dataset with only the sex column fails validation
with the SchemaError whatever pipeline would have run afterwards. -/
theorem C3_schema_amended_witness :
    animal_grouper_init ["Sex"] (fun _ => Except.ok (0 : ℕ)) =
      Except.error PyErr.schemaError ∧
    animal_grouper_init ["Sex"] (fun _ => Except.ok (0 : ℕ)) =
      animal_grouper_init ["Sex"] (fun _ => Except.error PyErr.overRetry) :=
  (C3_schema_amended ["Sex"] (fun _ => Except.ok (0 : ℕ))
    (fun _ => Except.error PyErr.overRetry)).2.1 (by decide)

/-- Claim C4: the partitioner (shuffle, then round-robin distribution)
returns exactly group_amount groups whose concatenation is a permutation
of the input — every input value lands in exactly one group, as many
times as it occurs, so the groups are a disjoint cover of the input
multiset. -/
theorem C4_partition_cover (g : ℕ) (datas shuffled : List ℚ)
    (hg : 0 < g) (hshuf : shuffled.Perm datas) :
    (group_randomly g datas shuffled).1.length = g ∧
    (group_randomly g datas shuffled).1.flatten.Perm datas := by
  constructor
  · exact length_distribute g shuffled
  · exact (flatten_distribute_perm g hg shuffled).trans hshuf

/-- Claim C4 witness: a concrete three-element input split into two
groups under a concrete shuffle. -/
theorem C4_partition_cover_witness :
    (group_randomly 2 [1, 2, 3] [3, 1, 2]).1.length = 2 ∧
    (group_randomly 2 [1, 2, 3] [3, 1, 2]).1.flatten.Perm [1, 2, 3] :=
  C4_partition_cover 2 [1, 2, 3] [3, 1, 2] (by decide) (by decide)

/-- Claim C5: every group produced by the partitioner has size
floor(n / g) or ceil(n / g) — sizes differ by at most 1 — and an empty
input yields group_amount empty groups. -/
theorem C5_group_sizes (g : ℕ) (datas shuffled : List ℚ)
    (hg : 0 < g) (hshuf : shuffled.Perm datas) :
    (∀ j, j < g →
      ((group_randomly g datas shuffled).1.getD j []).length = datas.length / g ∨
      ((group_randomly g datas shuffled).1.getD j []).length =
        (datas.length + g - 1) / g) ∧
    (datas = [] → (group_randomly g datas shuffled).1 = List.replicate g []) := by
  have hlen : shuffled.length = datas.length := hshuf.length_eq
  constructor
  · intro j hj
    have h := distribute_sizes g shuffled j hj
    rw [hlen] at h
    exact h
  · intro hnil
    subst hnil
    have hsh : shuffled = [] := hshuf.eq_nil
    have hfst : (group_randomly g ([] : List ℚ) shuffled).1 =
        distribute_data_evenly g shuffled := rfl
    rw [hfst, hsh, distribute_nil]

/-- Claim C5 witness: three values into two groups under a concrete
shuffle give sizes 2 and 1, i.e. floor or ceil of 3 / 2. -/
theorem C5_group_sizes_witness :
    (∀ j, j < 2 →
      ((group_randomly 2 [1, 2, 3] [2, 3, 1]).1.getD j []).length =
        ([1, 2, 3] : List ℚ).length / 2 ∨
      ((group_randomly 2 [1, 2, 3] [2, 3, 1]).1.getD j []).length =
        (([1, 2, 3] : List ℚ).length + 2 - 1) / 2) ∧
    (([1, 2, 3] : List ℚ) = [] →
      (group_randomly 2 [1, 2, 3] [2, 3, 1]).1 = List.replicate 2 []) :=
  C5_group_sizes 2 [1, 2, 3] [2, 3, 1] (by decide) (by decide)

/-- Claim C6: every partition returned by the sex-aware recombination of
two group_amount-group partitions has exactly group_amount groups; the
matching is a random bijection σ (a permutation of the group labels), each
merged group is the female group at that position followed by the male
group matched to it, so its size is the sum of the two, and the total
element count is the female count plus the male count. -/
theorem C6_recombination (g : ℕ) (list1 list2 : List (List ℚ)) (t : ℚ)
    (picks : ℕ → ℕ → ℕ) (p : List (List ℚ))
    (h1 : list1.length = g) (h2 : list2.length = g)
    (hres : (combine_lists_within_threshold g list1 list2 t picks).1 = Except.ok p) :
    ∃ σ : List ℕ, σ.Perm (List.range g) ∧
      p = List.zipWith (fun a b => a ++ b) list1 (σ.map fun m => list2.getD m []) ∧
      p.length = g ∧
      (∀ j, j < g → (p.getD j []).length =
        (list1.getD j []).length + (list2.getD (σ.getD j 0) []).length) ∧
      (p.map List.length).sum =
        (list1.map List.length).sum + (list2.map List.length).sum := by
  have hfull : combine_lists_go g list1 list2 t picks MAX_RETRIES 1 0 =
      (Except.ok p, (combine_lists_within_threshold g list1 list2 t picks).2) := by
    rw [← hres]
    exact Prod.mk.eta.symm
  obtain ⟨k, hk⟩ := combine_loop_ok g list1 list2 t picks MAX_RETRIES 1 0 p _ hfull
  obtain ⟨σ, hσ, hform⟩ := combine_attempt_spec g list1 list2 (picks k) h1
  rw [hform] at hk
  subst hk
  have hσlen : σ.length = g := hσ.length_eq.trans (List.length_range g)
  have hmlen : (σ.map fun m => list2.getD m []).length = g := by
    rw [List.length_map, hσlen]
  have hplen : (List.zipWith (fun a b => a ++ b) list1
      (σ.map fun m => list2.getD m [])).length = g := by
    rw [List.length_zipWith, h1, hmlen, min_self]
  refine ⟨σ, hσ, rfl, hplen, ?_, ?_⟩
  · intro j hj
    have hj1 : j < list1.length := by rw [h1]; exact hj
    have hjσ : j < σ.length := by rw [hσlen]; exact hj
    have hjm : j < (σ.map fun m => list2.getD m []).length := by rw [hmlen]; exact hj
    have hjz : j < (List.zipWith (fun a b => a ++ b) list1
        (σ.map fun m => list2.getD m [])).length := by rw [hplen]; exact hj
    rw [List.getD_eq_getElem _ _ hjz, List.getD_eq_getElem list1 [] hj1,
        List.getD_eq_getElem σ 0 hjσ, List.getElem_zipWith, List.getElem_map,
        List.length_append]
  · rw [sum_length_zipWith_append list1 _ (by rw [h1, hmlen])]
    have hms : ((σ.map fun m => list2.getD m []).map List.length).sum =
        (list2.map List.length).sum := by
      rw [List.map_map]
      have hperm2 : (σ.map (List.length ∘ fun m => list2.getD m [])).Perm
          ((List.range g).map (List.length ∘ fun m => list2.getD m [])) :=
        hσ.map _
      rw [hperm2.sum_eq, ← List.map_map, map_getD_range list2 g h2]
    rw [hms]

/-- Claim C6 witness: merging the concrete partitions [[1],[2]] and
[[3],[4]] under the identity-producing pick stream yields [[1,3],[2,4]]
with the stated bijection, sizes and totals. -/
theorem C6_recombination_witness :
    ∃ σ : List ℕ, σ.Perm (List.range 2) ∧
      ([[1, 3], [2, 4]] : List (List ℚ)) = List.zipWith (fun a b => a ++ b) [[1], [2]]
        (σ.map fun m => ([[3], [4]] : List (List ℚ)).getD m []) ∧
      ([[1, 3], [2, 4]] : List (List ℚ)).length = 2 ∧
      (∀ j, j < 2 → (([[1, 3], [2, 4]] : List (List ℚ)).getD j []).length =
        (([[1], [2]] : List (List ℚ)).getD j []).length +
          (([[3], [4]] : List (List ℚ)).getD (σ.getD j 0) []).length) ∧
      (([[1, 3], [2, 4]] : List (List ℚ)).map List.length).sum =
        (([[1], [2]] : List (List ℚ)).map List.length).sum +
          (([[3], [4]] : List (List ℚ)).map List.length).sum := by
  have hval : combine_attempt 2 [[(1 : ℚ)], [2]] [[3], [4]] ((fun _ _ => 0) 1) =
      [[1, 3], [2, 4]] := rfl
  have hacc : check_std_deviation_within_threshold [[(1 : ℚ), 3], [2, 4]] 1 =
      some false := by
    apply check_eq_some_false_intro _ _ (by decide)
    intro grp hgrp
    have hf : ([[(1 : ℚ), 3], [2, 4]]).flatten = [1, 3, 2, 4] := rfl
    rw [hf]
    have h1 : popVar ([1, 3, 2, 4] : List ℚ) = 5 / 4 := by norm_num [popVar, popMean]
    rw [h1]
    have hgr : grp = ([1, 3] : List ℚ) ∨ grp = ([2, 4] : List ℚ) := by
      rcases List.mem_cons.mp hgrp with h | h2
      · exact Or.inl h
      · rcases List.mem_cons.mp h2 with h | h3
        · exact Or.inr h
        · exact absurd h3 (List.not_mem_nil grp)
    rcases hgr with rfl | rfl
    · have h2 : popVar ([1, 3] : List ℚ) = 1 := by norm_num [popVar, popMean]
      rw [h2]
      apply stdGtBool_false_of_le <;> norm_num
    · have h2 : popVar ([2, 4] : List ℚ) = 1 := by norm_num [popVar, popMean]
      rw [h2]
      apply stdGtBool_false_of_le <;> norm_num
  have hres : (combine_lists_within_threshold 2 [[(1 : ℚ)], [2]] [[3], [4]] 1
      (fun _ _ => 0)).1 = Except.ok [[1, 3], [2, 4]] := by
    rw [combine_loop_first_accept 2 [[1], [2]] [[3], [4]] 1 (fun _ _ => 0)
      (by rw [hval]; exact hacc), hval]
  exact C6_recombination 2 [[1], [2]] [[3], [4]] 1 (fun _ _ => 0) [[1, 3], [2, 4]]
    rfl rfl hres

/-- Claim C7 counterexample: a two-group partition with unequal group
lengths and group_amount 2 does not materialize into a table — the pandas
column assignment fails on the length mismatch — refuting the claim that
every partition with at least group_amount groups yields a table. -/
theorem C7_counterexample :
    convert_to_df 2 [[1, 2], [3]] = Except.error PyErr.lengthMismatch ∧
    ¬∃ tbl, convert_to_df 2 [[(1 : ℚ), 2], [3]] = Except.ok tbl := by
  have hbase : convert_to_df 2 [[(1 : ℚ), 2], [3]] = Except.error PyErr.lengthMismatch := rfl
  refine ⟨hbase, ?_⟩
  rintro ⟨tbl, htbl⟩
  rw [hbase] at htbl
  exact Except.noConfusion htbl

/-- Claim C7 (amended): materialization raises ShapeError when the
partition has fewer groups than group_amount; when the group count is at
least group_amount and the groups all have one length (as in every
partition the pipeline itself produces), the output table has one column
per group, named Group 1 through Group N in group order, each holding that
group values; with unequal lengths the underlying tabular assignment
raises a length mismatch instead (claim C8). -/
theorem C7_materialization_amended (g : ℕ) (grouped : List (List ℚ)) :
    (grouped.length < g → convert_to_df g grouped = Except.error PyErr.shapeError) ∧
    (g ≤ grouped.length → allEqualLengths grouped = true →
      ∃ tbl, convert_to_df g grouped = Except.ok tbl ∧
        tbl.length = grouped.length ∧
        ∀ j, j < grouped.length →
          tbl.getD j ("", []) = ("Group " ++ toString (j + 1), grouped.getD j [])) := by
  constructor
  · intro hlt
    unfold convert_to_df
    rw [if_pos hlt]
  · intro hge heq
    refine ⟨namedColumns 1 grouped, convert_ok g grouped hge heq,
      namedColumns_length grouped 1, ?_⟩
    intro j hj
    rw [namedColumns_getD grouped 1 j hj]
    have harith : 1 + j = j + 1 := by omega
    rw [harith]

/-- Claim C7 witness: a 2-group partition materializes with 5 configured
groups into ShapeError, and with 2 configured groups into the table with
columns Group 1 and Group 2. -/
theorem C7_materialization_amended_witness :
    convert_to_df 5 [[1], [2]] = Except.error PyErr.shapeError ∧
    ∃ tbl, convert_to_df 2 [[(1 : ℚ)], [2]] = Except.ok tbl ∧
      tbl.length = ([[(1 : ℚ)], [2]] : List (List ℚ)).length ∧
      ∀ j, j < ([[(1 : ℚ)], [2]] : List (List ℚ)).length →
        tbl.getD j ("", []) =
          ("Group " ++ toString (j + 1), ([[(1 : ℚ)], [2]] : List (List ℚ)).getD j []) :=
  ⟨(C7_materialization_amended 5 [[1], [2]]).1 (by decide),
    (C7_materialization_amended 2 [[1], [2]]).2 (by decide) (by decide)⟩

/-- Claim C8 counterexample: a partition with enough groups but unequal
group lengths is not padded into a table — materialization fails with the
pandas length mismatch — refuting the claim that it succeeds. -/
theorem C8_counterexample :
    convert_to_df 2 [[1], [2, 3]] = Except.error PyErr.lengthMismatch ∧
    ¬∃ tbl, convert_to_df 2 [[(1 : ℚ)], [2, 3]] = Except.ok tbl := by
  have hbase : convert_to_df 2 [[(1 : ℚ)], [2, 3]] = Except.error PyErr.lengthMismatch := rfl
  refine ⟨hbase, ?_⟩
  rintro ⟨tbl, htbl⟩
  rw [hbase] at htbl
  exact Except.noConfusion htbl

/-- Claim C8 (amended): for every partition with at least group_amount
groups whose groups have unequal lengths, materialization does not pad:
the assignment of the first group whose length differs from the
established column length raises the pandas length-mismatch ValueError
(an unclassified error, not the ShapeError guard). -/
theorem C8_ragged_amended (g : ℕ) (grouped : List (List ℚ))
    (hg : g ≤ grouped.length) (hne : allEqualLengths grouped = false) :
    convert_to_df g grouped = Except.error PyErr.lengthMismatch :=
  convert_fail g grouped hg hne

/-- Claim C8 witness: a concrete ragged partition fails with the length
mismatch. -/
theorem C8_ragged_amended_witness :
    convert_to_df 1 [[4], [5, 6]] = Except.error PyErr.lengthMismatch :=
  C8_ragged_amended 1 [[4], [5, 6]] (by decide) (by decide)

/-- Claim C9: the partitioner mutates the buffer the caller passed in —
random.shuffle permutes it in place — so after the call the caller
sequence can hold the same elements in a different order, contrary to the
claim that it is left unchanged: here the draw [2, 1] (a permutation of
the input [1, 2], hence a possible shuffle outcome) leaves the caller
buffer equal to [2, 1], not [1, 2]. -/
theorem C9_inplace_shuffle :
    ([2, 1] : List ℚ).Perm [1, 2] ∧
    (group_randomly 2 [1, 2] [2, 1]).2 = [2, 1] ∧
    (group_randomly 2 [1, 2] [2, 1]).2 ≠ [1, 2] := by
  refine ⟨by decide, rfl, by decide⟩

/-- Claim C10: when the input size is not divisible by group_amount the
round-robin partitioner produces groups of two different sizes, np.std of
that ragged list of groups is not a well-defined array computation, so the
dispersion check raises an unclassified error instead of returning a
verdict; and the check returns a verdict exactly when all group lengths
are equal. -/
theorem C10_ragged_check (g : ℕ) (t : ℚ) (datas : List ℚ)
    (hg : 0 < g) (hmod : datas.length % g ≠ 0) :
    (∃ j k, j < g ∧ k < g ∧
      ((distribute_data_evenly g datas).getD j []).length ≠
        ((distribute_data_evenly g datas).getD k []).length) ∧
    check_std_deviation_within_threshold (distribute_data_evenly g datas) t = none ∧
    (∀ (grouped : List (List ℚ)) (t' : ℚ),
      check_std_deviation_within_threshold grouped t' = none ↔
        allEqualLengths grouped = false) := by
  have hglen : 0 < datas.length % g := Nat.pos_of_ne_zero hmod
  have hg1 : g - 1 < g := by omega
  have h0 : ((distribute_data_evenly g datas).getD 0 []).length =
      datas.length / g + 1 := by
    rw [distribute_group_length g datas 0 hg, if_pos hglen]
  have hlast : ((distribute_data_evenly g datas).getD (g - 1) []).length =
      datas.length / g := by
    rw [distribute_group_length g datas (g - 1) hg1]
    have hnot : ¬(g - 1 < datas.length % g) := by
      have hmlt := Nat.mod_lt datas.length hg
      omega
    rw [if_neg hnot, Nat.add_zero]
  have hne : allEqualLengths (distribute_data_evenly g datas) = false := by
    cases hval : allEqualLengths (distribute_data_evenly g datas) with
    | false => rfl
    | true =>
      exfalso
      have hpair := allEqualLengths_pairwise _ hval
      have hb0 : 0 < (distribute_data_evenly g datas).length := by
        rw [length_distribute]; exact hg
      have hbl : g - 1 < (distribute_data_evenly g datas).length := by
        rw [length_distribute]; exact hg1
      have hm0 : (distribute_data_evenly g datas).getD 0 [] ∈
          distribute_data_evenly g datas := by
        rw [List.getD_eq_getElem _ _ hb0]
        exact List.getElem_mem hb0
      have hml : (distribute_data_evenly g datas).getD (g - 1) [] ∈
          distribute_data_evenly g datas := by
        rw [List.getD_eq_getElem _ _ hbl]
        exact List.getElem_mem hbl
      have heq2 := hpair _ hm0 _ hml
      rw [h0, hlast] at heq2
      omega
  refine ⟨⟨0, g - 1, hg, hg1, ?_⟩, ?_, ?_⟩
  · rw [h0, hlast]
    omega
  · rw [check_eq_none_iff]
    exact hne
  · intro grouped t'
    exact check_eq_none_iff grouped t'

/-- Claim C10 witness: three values into two groups give group sizes 2 and
1 and the dispersion check on that partition raises. -/
theorem C10_ragged_check_witness :
    check_std_deviation_within_threshold (distribute_data_evenly 2 [0, 0, 1]) 1 = none :=
  (C10_ragged_check 2 1 [0, 0, 1] (by decide) (by decide)).2.1

end AnimalGrouper
